import Mathlib

/-!
Shallow embedding of the Diktik chat client's session/message state machine
(src/App.tsx, src/types.ts and the Gemini service module) together with
theorems settling the specification claims about it.
-/

namespace Diktik

/-- Message role, from the union type in types.ts. -/
inductive Role where
  | user
  | model
deriving DecidableEq

/-- Model identifiers from types.ts (FLASH and PRO). -/
inductive ModelId where
  | flash
  | pro
deriving DecidableEq

/-- Grounding metadata is carried around untouched by the core, so it is
modelled as a wrapper over a single payload value. -/
structure GroundingMetadata where
  payload : String
deriving DecidableEq

/-- ChatMessage from types.ts. The optional fields are modelled with the
defaults false / none that the code treats an absent field as. -/
structure ChatMessage where
  id : String
  role : Role
  content : String
  timestamp : Nat
  isReasoning : Bool := false
  groundingMetadata : Option GroundingMetadata := none
  isThinking : Bool := false
deriving DecidableEq

/-- ChatSession from types.ts. -/
structure ChatSession where
  id : String
  title : String
  messages : List ChatMessage
  updatedAt : Nat
deriving DecidableEq

/-- The React state of App.tsx that the claims concern: session list, current
session pointer, the settings toggles and the global busy flag. -/
structure AppState where
  sessions : List ChatSession
  currentSessionId : Option String
  currentModel : ModelId
  enableSearch : Bool
  enableThinking : Bool
  isLoading : Bool
deriving DecidableEq

/-- App.tsx createNewSession: prepend a fresh empty session titled New Chat
and make it current. -/
def createNewSession (freshId : String) (now : Nat) (st : AppState) : AppState :=
  let newSession : ChatSession := { id := freshId, title := "New Chat", messages := [], updatedAt := now }
  { st with sessions := newSession :: st.sessions, currentSessionId := some freshId }

/-- App.tsx deleteSession click handler: filter the session out of the list;
if it was the current one, clear the current pointer. -/
def deleteSessionCore (sessionId : String) (st : AppState) : AppState :=
  let remaining := st.sessions.filter (fun s => s.id != sessionId)
  if st.currentSessionId = some sessionId then
    { st with sessions := remaining, currentSessionId := none }
  else
    { st with sessions := remaining }

/-- The App.tsx session-restoration effect (it runs whenever the session list
length changes): with no sessions left it creates a new one; otherwise, when no
session is current, it selects sessions[0], the head of the stored list. -/
def restoreEffect (freshId : String) (now : Nat) (st : AppState) : AppState :=
  match st.sessions with
  | [] => createNewSession freshId now st
  | s0 :: _ =>
    match st.currentSessionId with
    | none => { st with currentSessionId := some s0.id }
    | some _ => st

/-- deleteSession as observed by the user: the click handler followed by the
restoration effect. -/
def deleteSession (sessionId freshId : String) (now : Nat) (st : AppState) : AppState :=
  restoreEffect freshId now (deleteSessionCore sessionId st)

/-- Sidebar click handler: setCurrentSessionId(session.id). -/
def selectSession (sessionId : String) (st : AppState) : AppState :=
  { st with currentSessionId := some sessionId }

/-- App.tsx updateSessionMessages: replace one session's message list and bump
its updatedAt stamp. -/
def updateSessionMessages (sessionId : String) (now : Nat) (newMessages : List ChatMessage)
    (st : AppState) : AppState :=
  { st with sessions := st.sessions.map (fun s =>
      if s.id == sessionId then { s with messages := newMessages, updatedAt := now } else s) }

/-- One incremental event of a streaming invocation, as delivered to the
engine callbacks of generateResponse. -/
inductive StreamEvent where
  | chunk (text : String)
  | grounding (md : GroundingMetadata)
deriving DecidableEq

/-- Outcome of one adapter stream: the events delivered in order, and whether
the stream then terminated with an error instead of a normal end. -/
structure StreamOutcome where
  events : List StreamEvent
  errored : Bool
deriving DecidableEq

/-- The fixed user-visible error text written by the catch block. -/
def errorFallbackText : String :=
  "Sorry, I encountered an error processing your request. Please try again."

/-- Shared shape of the three setSessions updaters inside generateResponse
(onChunk, onGrounding and the catch block): find the session with the captured
id, rewrite the one bot message of that session through f, and write the new
message list back into every session carrying the captured id. -/
def applyMessageUpdate (capturedId botMsgId : String) (f : ChatMessage → ChatMessage)
    (sessions : List ChatSession) : List ChatSession :=
  match sessions.find? (fun s => s.id == capturedId) with
  | none => sessions
  | some session =>
    let newMsgs := session.messages.map (fun msg => if msg.id == botMsgId then f msg else msg)
    sessions.map (fun s => if s.id == capturedId then { s with messages := newMsgs } else s)

/-- onChunk: the bot message content becomes the accumulator value and
isThinking is cleared. -/
def applyChunk (capturedId botMsgId : String) (acc : String) :
    List ChatSession → List ChatSession :=
  applyMessageUpdate capturedId botMsgId (fun m => { m with content := acc, isThinking := false })

/-- onGrounding: the bot message groundingMetadata is overwritten with the
latest received value. -/
def applyGrounding (capturedId botMsgId : String) (md : GroundingMetadata) :
    List ChatSession → List ChatSession :=
  applyMessageUpdate capturedId botMsgId (fun m => { m with groundingMetadata := some md })

/-- catch block: the bot message content is replaced with the fixed error text
and isThinking is cleared. -/
def applyStreamError (capturedId botMsgId : String) :
    List ChatSession → List ChatSession :=
  applyMessageUpdate capturedId botMsgId
    (fun m => { m with content := errorFallbackText, isThinking := false })

/-- The delta loop of generateResponse: thread accumulatedText through the
chunk events and apply each callback update in arrival order. -/
def processEvents (capturedId botMsgId : String) :
    List StreamEvent → String → List ChatSession → String × List ChatSession
  | [], acc, sessions => (acc, sessions)
  | StreamEvent.chunk t :: rest, acc, sessions =>
    processEvents capturedId botMsgId rest (acc ++ t)
      (applyChunk capturedId botMsgId (acc ++ t) sessions)
  | StreamEvent.grounding md :: rest, acc, sessions =>
    processEvents capturedId botMsgId rest acc
      (applyGrounding capturedId botMsgId md sessions)

/-- The onChunk callback as a state update: it rewrites the sessions through
the captured closure values only and never reads the current session pointer. -/
def onChunkStep (capturedId botMsgId : String) (acc : String) (st : AppState) : AppState :=
  { st with sessions := applyChunk capturedId botMsgId acc st.sessions }

/-- The onGrounding callback as a state update, analogous to onChunkStep. -/
def onGroundingStep (capturedId botMsgId : String) (md : GroundingMetadata)
    (st : AppState) : AppState :=
  { st with sessions := applyGrounding capturedId botMsgId md st.sessions }

/-- The arguments generateResponse passes to the streamGeminiResponse adapter. -/
structure AdapterCall where
  model : ModelId
  history : List ChatMessage
  message : String
  enableSearch : Bool
  enableThinking : Bool
deriving DecidableEq

/-- Result of one engine invocation: the final app state plus the list of
adapter calls that the invocation made. -/
structure GenResult where
  state : AppState
  calls : List AdapterCall
deriving DecidableEq

/-- The placeholder model message synthesized at the start of generateResponse:
empty content, isThinking raised, isReasoning only for pro with thinking on. -/
def botPlaceholder (botMsgId : String) (now : Nat) (currentModel : ModelId)
    (enableThinking : Bool) : ChatMessage :=
  { id := botMsgId
    role := Role.model
    content := ""
    timestamp := now
    isThinking := true
    isReasoning := currentModel == ModelId.pro && enableThinking }

/-- App.tsx generateResponse, with the adapter stream modelled by its outcome:
append the placeholder and raise the busy flag, run the delta loop, apply the
catch update when the stream errored, and finally lower the busy flag. -/
def generateResponse (botMsgId : String) (now : Nat)
    (messages newHistory : List ChatMessage) (currentText : String)
    (outcome : StreamOutcome) (st : AppState) : GenResult :=
  match st.currentSessionId with
  | none => { state := st, calls := [] }
  | some capturedId =>
    let placeholder := botPlaceholder botMsgId now st.currentModel st.enableThinking
    let updatedMessages := messages ++ [placeholder]
    let st1 := updateSessionMessages capturedId now updatedMessages st
    let st2 := { st1 with isLoading := true }
    let run := processEvents capturedId botMsgId outcome.events "" st2.sessions
    let finalSessions :=
      if outcome.errored then applyStreamError capturedId botMsgId run.2 else run.2
    { state := { st2 with sessions := finalSessions, isLoading := false }
      calls := [{ model := st.currentModel, history := newHistory, message := currentText,
                  enableSearch := st.enableSearch, enableThinking := st.enableThinking }] }

/-- App.tsx currentSession: sessions.find by the current id, falling back to
sessions[0]. -/
def currentSessionOf (st : AppState) : Option ChatSession :=
  match st.sessions.find? (fun s => some s.id == st.currentSessionId) with
  | some s => some s
  | none => st.sessions.head?

/-- The attachment annotation of handleSendMessage: with files attached the
display content is the text, a blank line and the [Attached n file(s)] marker. -/
def displayContentOf (text : String) (numFiles : Nat) : String :=
  if numFiles > 0 then text ++ "\n\n[Attached " ++ toString numFiles ++ " file(s)]" else text

/-- App.tsx handleSendMessage: build the possibly annotated user message, then
call generateResponse with the previous history as context and the display
content as the current turn. -/
def handleSendMessage (text : String) (numFiles : Nat) (userMsgId botMsgId : String)
    (now : Nat) (outcome : StreamOutcome) (st : AppState) : GenResult :=
  match currentSessionOf st with
  | none => { state := st, calls := [] }
  | some currentSession =>
    let displayContent := displayContentOf text numFiles
    let userMsg : ChatMessage :=
      { id := userMsgId, role := Role.user, content := displayContent, timestamp := now }
    let newHistory := currentSession.messages
    let messagesWithUser := currentSession.messages ++ [userMsg]
    generateResponse botMsgId now messagesWithUser newHistory displayContent outcome st

/-- App.tsx handleEditMessage: keep the strict prefix of messages before the
edited one, rebuild the edited message with the new content and a refreshed
timestamp, discard everything after it, and regenerate. -/
def handleEditMessage (messageId newContent : String) (botMsgId : String) (now : Nat)
    (outcome : StreamOutcome) (st : AppState) : GenResult :=
  match currentSessionOf st with
  | none => { state := st, calls := [] }
  | some currentSession =>
    match currentSession.messages.findIdx? (fun m => m.id == messageId) with
    | none => { state := st, calls := [] }
    | some msgIndex =>
      match currentSession.messages[msgIndex]? with
      | none => { state := st, calls := [] }
      | some original =>
        let historyBeforeEdit := currentSession.messages.take msgIndex
        let updatedMsg := { original with content := newContent, timestamp := now }
        let messagesWithUpdated := historyBeforeEdit ++ [updatedMsg]
        generateResponse botMsgId now messagesWithUpdated historyBeforeEdit newContent outcome st

/-- One chunk of the underlying Gemini stream as the service module sees it:
possibly absent (or empty) text and possibly absent grounding metadata on the
first candidate. -/
structure GenChunk where
  text : Option String
  groundingMetadata : Option GroundingMetadata
deriving DecidableEq

/-- The callback invocations the streamGeminiResponse event loop performs for
one chunk: onChunk only when the text is truthy (present and non-empty),
onGrounding only when grounding metadata is present. -/
def chunkEvents (c : GenChunk) : List StreamEvent :=
  (match c.text with
   | some t => if t != "" then [StreamEvent.chunk t] else []
   | none => []) ++
  (match c.groundingMetadata with
   | some md => [StreamEvent.grounding md]
   | none => [])

/-- All callback invocations of one stream, in chunk order. -/
def streamEvents (chunks : List GenChunk) : List StreamEvent :=
  (chunks.map chunkEvents).flatten

/-- The thinkingConfig computation of streamGeminiResponse: a fixed 16000
budget when thinking is enabled on pro, a budget of zero when it is disabled
on pro, and no config at all otherwise. -/
def thinkingBudgetOf (enableThinking : Bool) (model : ModelId) : Option Nat :=
  if enableThinking && model == ModelId.pro then some 16000
  else if !enableThinking && model == ModelId.pro then some 0
  else none

/-- The first session carrying the given id. -/
def findSession (sessions : List ChatSession) (sessionId : String) : Option ChatSession :=
  sessions.find? (fun s => s.id == sessionId)

/-- The first message carrying the given id. -/
def findMessage (msgs : List ChatMessage) (messageId : String) : Option ChatMessage :=
  msgs.find? (fun m => m.id == messageId)

/-- The tracked bot message: the message with the given id inside the first
session with the captured id. -/
def botMessage (sessions : List ChatSession) (sessionId messageId : String) : Option ChatMessage :=
  (findSession sessions sessionId).bind (fun s => findMessage s.messages messageId)

/-- Concatenation of the chunk texts of an event list, in delivery order. -/
def chunkConcat : List StreamEvent → String
  | [] => ""
  | StreamEvent.chunk t :: rest => t ++ chunkConcat rest
  | StreamEvent.grounding _ :: rest => chunkConcat rest

/-- Whether an event list contains at least one text delta. -/
def hasChunk : List StreamEvent → Bool
  | [] => false
  | StreamEvent.chunk _ :: _ => true
  | StreamEvent.grounding _ :: rest => hasChunk rest

/-- Effect of an event list on the tracked bot message alone, threading the
accumulator exactly as the delta loop does. -/
def msgAfterEvents : List StreamEvent → String → ChatMessage → ChatMessage
  | [], _, m => m
  | StreamEvent.chunk t :: rest, acc, m =>
    msgAfterEvents rest (acc ++ t) { m with content := acc ++ t, isThinking := false }
  | StreamEvent.grounding md :: rest, acc, m =>
    msgAfterEvents rest acc { m with groundingMetadata := some md }

/-- A concrete session used by counterexamples and witnesses. -/
def sessW : ChatSession := { id := "s1", title := "New Chat", messages := [], updatedAt := 1 }

/-- A concrete one-session state used by counterexamples and witnesses. -/
def stW : AppState :=
  { sessions := [sessW], currentSessionId := some "s1", currentModel := ModelId.flash,
    enableSearch := false, enableThinking := false, isLoading := false }

/-- A concrete user message used by witnesses. -/
def msgU : ChatMessage := { id := "m1", role := Role.user, content := "hi", timestamp := 1 }

/-- A concrete model message used by witnesses. -/
def msgM : ChatMessage := { id := "m2", role := Role.model, content := "hello", timestamp := 2 }

/-- A concrete session holding one exchange, used by witnesses. -/
def sessE : ChatSession := { id := "E", title := "chat", messages := [msgU, msgM], updatedAt := 4 }

/-- A concrete state whose current session holds one exchange. -/
def stE : AppState :=
  { sessions := [sessE], currentSessionId := some "E", currentModel := ModelId.flash,
    enableSearch := false, enableThinking := false, isLoading := false }

/-- A concrete grounding payload used by witnesses. -/
def mdW : GroundingMetadata := { payload := "cite" }

def sessA : ChatSession := { id := "A", title := "alpha", messages := [], updatedAt := 50 }

def sessB : ChatSession := { id := "B", title := "beta", messages := [], updatedAt := 10 }

def sessC : ChatSession := { id := "C", title := "gamma", messages := [], updatedAt := 60 }

/-- A state whose stored session order (most recently created first) disagrees
with the order of the updatedAt stamps: A was updated after B was created. -/
def stC3 : AppState :=
  { sessions := [sessC, sessB, sessA], currentSessionId := some "C",
    currentModel := ModelId.flash, enableSearch := false, enableThinking := false,
    isLoading := false }

/-- C3 counterexample: deleting the current session C leaves [B, A] in stored
order, and the effect selects B (sessions[0]) even though A has the strictly
greater updatedAt, refuting the most-recently-updated restoration rule. -/
theorem C3_counterexample :
    (deleteSession "C" "fresh" 100 stC3).currentSessionId = some "B"
    ∧ (deleteSession "C" "fresh" 100 stC3).sessions = [sessB, sessA]
    ∧ sessB.updatedAt < sessA.updatedAt := by
  decide

/-- C3 (amended): after deleteSession removes the currently-current session,
if the registry became empty, exactly one new session exists afterward (empty,
titled New Chat, and current); if the registry is non-empty, the head of the
stored session list (the most recently created remaining session, not
necessarily the one with the greatest updatedAt) becomes current. -/
theorem C3_amended_restoration (st : AppState) (sid freshId : String) (now : Nat)
    (hcur : st.currentSessionId = some sid) :
    ((st.sessions.filter (fun s => s.id != sid)) = [] →
      (deleteSession sid freshId now st).sessions
          = [{ id := freshId, title := "New Chat", messages := [], updatedAt := now }]
      ∧ (deleteSession sid freshId now st).currentSessionId = some freshId)
    ∧ (∀ s0 rest, (st.sessions.filter (fun s => s.id != sid)) = s0 :: rest →
      (deleteSession sid freshId now st).sessions = s0 :: rest
      ∧ (deleteSession sid freshId now st).currentSessionId = some s0.id) := by
  constructor
  · intro hempty
    simp [deleteSession, deleteSessionCore, restoreEffect, createNewSession, hcur, hempty]
  · intro s0 rest hcons
    simp [deleteSession, deleteSessionCore, restoreEffect, hcur, hcons]

/-- C3 witness: deleting the only session of the concrete one-session state
leaves exactly one fresh, empty, current New Chat session. -/
theorem C3_amended_restoration_witness :
    (deleteSession "s1" "n1" 7 stW).sessions
        = [{ id := "n1", title := "New Chat", messages := [], updatedAt := 7 }]
    ∧ (deleteSession "s1" "n1" 7 stW).currentSessionId = some "n1" :=
  (C3_amended_restoration stW "s1" "n1" 7 rfl).1 (by decide)

/-- find? commutes with mapping a function that preserves the predicate. -/
theorem find?_map_of_pres {α : Type} (g : α → α) (p : α → Bool)
    (hg : ∀ a, p (g a) = p a) : ∀ l : List α, (l.map g).find? p = (l.find? p).map g
  | [] => rfl
  | a :: l => by
    simp only [List.map_cons, List.find?]
    rw [hg a]
    cases h : p a
    · simpa using find?_map_of_pres g p hg l
    · rfl

/-- The effect of one callback update on the tracked bot message is exactly
the message transform. -/
theorem botMessage_applyMessageUpdate (sid mid : String) (f : ChatMessage → ChatMessage)
    (hf : ∀ m, (f m).id = m.id) (S : List ChatSession) :
    botMessage (applyMessageUpdate sid mid f S) sid mid = (botMessage S sid mid).map f := by
  unfold botMessage findSession findMessage applyMessageUpdate
  cases hfind : S.find? (fun s => s.id == sid) with
  | none => simp [hfind]
  | some s0 =>
    have hs0 : (s0.id == sid) = true := by simpa using List.find?_some hfind
    simp only [hfind]
    rw [find?_map_of_pres _ _ ?hpres S]
    case hpres =>
      intro s
      by_cases h : (s.id == sid) = true <;> simp [h]
    rw [hfind]
    simp only [Option.map_some', Option.some_bind]
    simp only [hs0, if_true]
    rw [find?_map_of_pres _ _ ?hpresm s0.messages]
    case hpresm =>
      intro m
      by_cases h : (m.id == mid) = true <;> simp [h, hf]
    cases hm : s0.messages.find? (fun m => m.id == mid) with
    | none => rfl
    | some m =>
      have hmid : m.id = mid := by simpa using List.find?_some hm
      simp [hmid]

/-- botMessage_applyMessageUpdate specialized to the onChunk update. -/
theorem botMessage_applyChunk (sid mid acc : String) (S : List ChatSession) :
    botMessage (applyChunk sid mid acc S) sid mid
      = (botMessage S sid mid).map (fun m => { m with content := acc, isThinking := false }) :=
  botMessage_applyMessageUpdate sid mid
    (fun m => { m with content := acc, isThinking := false }) (fun _ => rfl) S

/-- botMessage_applyMessageUpdate specialized to the onGrounding update. -/
theorem botMessage_applyGrounding (sid mid : String) (md : GroundingMetadata)
    (S : List ChatSession) :
    botMessage (applyGrounding sid mid md S) sid mid
      = (botMessage S sid mid).map (fun m => { m with groundingMetadata := some md }) :=
  botMessage_applyMessageUpdate sid mid
    (fun m => { m with groundingMetadata := some md }) (fun _ => rfl) S

/-- botMessage_applyMessageUpdate specialized to the catch update. -/
theorem botMessage_applyStreamError (sid mid : String) (S : List ChatSession) :
    botMessage (applyStreamError sid mid S) sid mid
      = (botMessage S sid mid).map
          (fun m => { m with content := errorFallbackText, isThinking := false }) :=
  botMessage_applyMessageUpdate sid mid
    (fun m => { m with content := errorFallbackText, isThinking := false }) (fun _ => rfl) S

/-- The accumulator after the delta loop is the initial accumulator followed by
the concatenation of the chunk texts. -/
theorem processEvents_fst (sid mid : String) :
    ∀ (evs : List StreamEvent) (acc : String) (S : List ChatSession),
    (processEvents sid mid evs acc S).1 = acc ++ chunkConcat evs
  | [], acc, S => by simp [processEvents, chunkConcat]
  | StreamEvent.chunk t :: rest, acc, S => by
    rw [processEvents, processEvents_fst sid mid rest, chunkConcat, String.append_assoc]
  | StreamEvent.grounding md :: rest, acc, S => by
    rw [processEvents, processEvents_fst sid mid rest, chunkConcat]

/-- The delta loop acts on the tracked bot message exactly as msgAfterEvents. -/
theorem botMessage_processEvents (sid mid : String) :
    ∀ (evs : List StreamEvent) (acc : String) (S : List ChatSession),
    botMessage (processEvents sid mid evs acc S).2 sid mid
      = (botMessage S sid mid).map (msgAfterEvents evs acc)
  | [], acc, S => by
    cases h : botMessage S sid mid <;> simp [processEvents, msgAfterEvents, h]
  | StreamEvent.chunk t :: rest, acc, S => by
    rw [processEvents, botMessage_processEvents sid mid rest,
      botMessage_applyChunk, Option.map_map]
    cases h : botMessage S sid mid <;> simp [msgAfterEvents, h, Function.comp]
  | StreamEvent.grounding md :: rest, acc, S => by
    rw [processEvents, botMessage_processEvents sid mid rest,
      botMessage_applyGrounding, Option.map_map]
    cases h : botMessage S sid mid <;> simp [msgAfterEvents, h, Function.comp]

/-- Content after the event transforms: the accumulator plus all chunk texts,
provided the message content and accumulator agree initially. -/
theorem msgAfterEvents_content :
    ∀ (evs : List StreamEvent) (acc : String) (m : ChatMessage), m.content = acc →
    (msgAfterEvents evs acc m).content = acc ++ chunkConcat evs
  | [], acc, m, h => by simp [msgAfterEvents, chunkConcat, h]
  | StreamEvent.chunk t :: rest, acc, m, h => by
    rw [msgAfterEvents, msgAfterEvents_content rest (acc ++ t) _ rfl,
      chunkConcat, String.append_assoc]
  | StreamEvent.grounding md :: rest, acc, m, h => by
    rw [msgAfterEvents,
      msgAfterEvents_content rest acc { m with groundingMetadata := some md } h, chunkConcat]

/-- isThinking after the event transforms: cleared exactly by the first chunk. -/
theorem msgAfterEvents_isThinking :
    ∀ (evs : List StreamEvent) (acc : String) (m : ChatMessage),
    (msgAfterEvents evs acc m).isThinking = (m.isThinking && !hasChunk evs)
  | [], acc, m => by simp [msgAfterEvents, hasChunk]
  | StreamEvent.chunk t :: rest, acc, m => by
    rw [msgAfterEvents, msgAfterEvents_isThinking rest]
    simp [hasChunk]
  | StreamEvent.grounding md :: rest, acc, m => by
    rw [msgAfterEvents, msgAfterEvents_isThinking rest, hasChunk]

/-- The event transforms keep the message id. -/
theorem msgAfterEvents_id :
    ∀ (evs : List StreamEvent) (acc : String) (m : ChatMessage),
    (msgAfterEvents evs acc m).id = m.id
  | [], acc, m => rfl
  | StreamEvent.chunk t :: rest, acc, m => by
    rw [msgAfterEvents, msgAfterEvents_id rest]
  | StreamEvent.grounding md :: rest, acc, m => by
    rw [msgAfterEvents, msgAfterEvents_id rest]

/-- Appending the placeholder puts it in the tracked bot message slot, as long
as the placeholder id is fresh for the displayed messages. -/
theorem botMessage_updateSessionMessages (sid mid : String) (now : Nat)
    (messages : List ChatMessage) (pl : ChatMessage) (hpl : pl.id = mid) (st : AppState)
    (hex : (findSession st.sessions sid).isSome = true)
    (hfresh : ∀ m ∈ messages, m.id ≠ mid) :
    botMessage (updateSessionMessages sid now (messages ++ [pl]) st).sessions sid mid = some pl := by
  unfold botMessage findSession findMessage updateSessionMessages
  unfold findSession at hex
  obtain ⟨s0, hs0⟩ := Option.isSome_iff_exists.mp hex
  have hid : (s0.id == sid) = true := by simpa using List.find?_some hs0
  rw [find?_map_of_pres _ _ ?hpres st.sessions]
  case hpres =>
    intro s
    by_cases h : (s.id == sid) = true <;> simp [h]
  rw [hs0]
  simp only [Option.map_some', Option.some_bind]
  simp only [hid, if_true]
  rw [List.find?_append]
  have hnone : messages.find? (fun m => m.id == mid) = none := by
    rw [List.find?_eq_none]
    intro m hm
    simpa using hfresh m hm
  rw [hnone]
  simp [List.find?, hpl]

/-- generateResponse on a live current session: the final session list is the
delta loop result, post-composed with the catch update when the stream errored. -/
theorem generateResponse_state_sessions (botMsgId : String) (now : Nat)
    (messages newHistory : List ChatMessage) (currentText : String)
    (outcome : StreamOutcome) (st : AppState) (sid : String)
    (hcur : st.currentSessionId = some sid) :
    (generateResponse botMsgId now messages newHistory currentText outcome st).state.sessions
      = (if outcome.errored then
          applyStreamError sid botMsgId
            (processEvents sid botMsgId outcome.events ""
              (updateSessionMessages sid now
                (messages ++ [botPlaceholder botMsgId now st.currentModel st.enableThinking]) st).sessions).2
        else
          (processEvents sid botMsgId outcome.events ""
            (updateSessionMessages sid now
              (messages ++ [botPlaceholder botMsgId now st.currentModel st.enableThinking]) st).sessions).2) := by
  simp [generateResponse, hcur]

/-- generateResponse on a live current session makes exactly one adapter call,
passing the given history as context and the given text as the current turn. -/
theorem generateResponse_calls (botMsgId : String) (now : Nat)
    (messages newHistory : List ChatMessage) (currentText : String)
    (outcome : StreamOutcome) (st : AppState) (sid : String)
    (hcur : st.currentSessionId = some sid) :
    (generateResponse botMsgId now messages newHistory currentText outcome st).calls
      = [{ model := st.currentModel, history := newHistory, message := currentText,
           enableSearch := st.enableSearch, enableThinking := st.enableThinking }] := by
  simp [generateResponse, hcur]

/-- generateResponse always lowers the busy flag in its finally step. -/
theorem generateResponse_isLoading (botMsgId : String) (now : Nat)
    (messages newHistory : List ChatMessage) (currentText : String)
    (outcome : StreamOutcome) (st : AppState) (sid : String)
    (hcur : st.currentSessionId = some sid) :
    (generateResponse botMsgId now messages newHistory currentText outcome st).state.isLoading
      = false := by
  simp [generateResponse, hcur]

/-- C4: for every sequence of text deltas delivered by the adapter during one
invocation that ends without error, after each delta the placeholder content
equals the concatenation of the deltas delivered so far, and the final content
equals the concatenation of all deltas in delivery order. -/
theorem C4_delta_concatenation (botMsgId : String) (now : Nat)
    (messages newHistory : List ChatMessage) (currentText : String)
    (outcome : StreamOutcome) (st : AppState) (sid : String)
    (hcur : st.currentSessionId = some sid)
    (hex : (findSession st.sessions sid).isSome = true)
    (hfresh : ∀ m ∈ messages, m.id ≠ botMsgId)
    (hnoerr : outcome.errored = false) :
    (∀ k : Nat,
      Option.map ChatMessage.content
        (botMessage (processEvents sid botMsgId (outcome.events.take k) ""
          (updateSessionMessages sid now
            (messages ++ [botPlaceholder botMsgId now st.currentModel st.enableThinking]) st).sessions).2
          sid botMsgId)
        = some (chunkConcat (outcome.events.take k)))
    ∧ Option.map ChatMessage.content
        (botMessage
          (generateResponse botMsgId now messages newHistory currentText outcome st).state.sessions
          sid botMsgId)
        = some (chunkConcat outcome.events) := by
  have hinit := botMessage_updateSessionMessages sid botMsgId now messages
    (botPlaceholder botMsgId now st.currentModel st.enableThinking) rfl st hex hfresh
  constructor
  · intro k
    rw [botMessage_processEvents, hinit]
    simp only [Option.map_some']
    rw [msgAfterEvents_content (outcome.events.take k) "" _ rfl]
    simp
  · rw [generateResponse_state_sessions botMsgId now messages newHistory currentText outcome st sid hcur,
      hnoerr]
    simp only [if_false, Bool.false_eq_true]
    rw [botMessage_processEvents, hinit]
    simp only [Option.map_some']
    rw [msgAfterEvents_content outcome.events "" _ rfl]
    simp

/-- C4 witness: the spec scenario, deltas Hel then lo, final content Hello. -/
theorem C4_delta_concatenation_witness :
    Option.map ChatMessage.content
      (botMessage
        (generateResponse "b1" 5 [] [] "hi"
          { events := [StreamEvent.chunk "Hel", StreamEvent.chunk "lo"], errored := false }
          stW).state.sessions
        "s1" "b1")
      = some "Hello" := by
  have h := (C4_delta_concatenation "b1" 5 [] [] "hi"
    { events := [StreamEvent.chunk "Hel", StreamEvent.chunk "lo"], errored := false }
    stW "s1" rfl (by decide) (by simp) rfl).2
  exact h.trans (by decide)

/-- C1 counterexample: when the stream completes normally with zero deltas,
nothing in the code clears isThinking, so the placeholder keeps isThinking
true after the invocation, contradicting the forced true-to-false transition
at stream end. -/
theorem C1_counterexample :
    Option.map ChatMessage.isThinking
      (botMessage
        (generateResponse "b1" 2 [] [] "hi" { events := [], errored := false } stW).state.sessions
        "s1" "b1")
      = some true := by
  decide

/-- C1 (amended): the placeholder's isThinking transitions from true to false
at most once per invocation: it stays true exactly until the first text delta,
and an error also forces it false at stream end; but on a stream that completes
normally with zero deltas it is never cleared and remains true. -/
theorem C1_amended_isThinking (botMsgId : String) (now : Nat)
    (messages newHistory : List ChatMessage) (currentText : String)
    (outcome : StreamOutcome) (st : AppState) (sid : String)
    (hcur : st.currentSessionId = some sid)
    (hex : (findSession st.sessions sid).isSome = true)
    (hfresh : ∀ m ∈ messages, m.id ≠ botMsgId) :
    (∀ k : Nat,
      Option.map ChatMessage.isThinking
        (botMessage (processEvents sid botMsgId (outcome.events.take k) ""
          (updateSessionMessages sid now
            (messages ++ [botPlaceholder botMsgId now st.currentModel st.enableThinking]) st).sessions).2
          sid botMsgId)
        = some (!hasChunk (outcome.events.take k)))
    ∧ (outcome.errored = true →
      Option.map ChatMessage.isThinking
        (botMessage
          (generateResponse botMsgId now messages newHistory currentText outcome st).state.sessions
          sid botMsgId)
        = some false)
    ∧ (outcome.errored = false →
      Option.map ChatMessage.isThinking
        (botMessage
          (generateResponse botMsgId now messages newHistory currentText outcome st).state.sessions
          sid botMsgId)
        = some (!hasChunk outcome.events)) := by
  have hinit := botMessage_updateSessionMessages sid botMsgId now messages
    (botPlaceholder botMsgId now st.currentModel st.enableThinking) rfl st hex hfresh
  refine ⟨?_, ?_, ?_⟩
  · intro k
    rw [botMessage_processEvents, hinit]
    simp only [Option.map_some']
    rw [msgAfterEvents_isThinking (outcome.events.take k)]
    rfl
  · intro herr
    rw [generateResponse_state_sessions botMsgId now messages newHistory currentText outcome st sid hcur,
      herr]
    simp only [if_true]
    rw [botMessage_applyStreamError, botMessage_processEvents, hinit]
    simp
  · intro hok
    rw [generateResponse_state_sessions botMsgId now messages newHistory currentText outcome st sid hcur,
      hok]
    simp only [if_false, Bool.false_eq_true]
    rw [botMessage_processEvents, hinit]
    simp only [Option.map_some']
    rw [msgAfterEvents_isThinking outcome.events]
    rfl

/-- C1 witness: one delta clears isThinking for good on normal completion. -/
theorem C1_amended_isThinking_witness :
    Option.map ChatMessage.isThinking
      (botMessage
        (generateResponse "b1" 2 [] [] "hi"
          { events := [StreamEvent.chunk "x"], errored := false } stW).state.sessions
        "s1" "b1")
      = some false := by
  have h := (C1_amended_isThinking "b1" 2 [] [] "hi"
    { events := [StreamEvent.chunk "x"], errored := false } stW "s1" rfl (by decide) (by simp)).2.2 rfl
  exact h.trans (by decide)

/-- Shared helper: on an erroring stream the placeholder content ends up being
the fixed error text. -/
theorem generateResponse_error_content (botMsgId : String) (now : Nat)
    (messages newHistory : List ChatMessage) (currentText : String)
    (outcome : StreamOutcome) (st : AppState) (sid : String)
    (hcur : st.currentSessionId = some sid)
    (hex : (findSession st.sessions sid).isSome = true)
    (hfresh : ∀ m ∈ messages, m.id ≠ botMsgId)
    (herr : outcome.errored = true) :
    Option.map ChatMessage.content
      (botMessage
        (generateResponse botMsgId now messages newHistory currentText outcome st).state.sessions
        sid botMsgId)
      = some errorFallbackText := by
  have hinit := botMessage_updateSessionMessages sid botMsgId now messages
    (botPlaceholder botMsgId now st.currentModel st.enableThinking) rfl st hex hfresh
  rw [generateResponse_state_sessions botMsgId now messages newHistory currentText outcome st sid hcur,
    herr]
  simp only [if_true]
  rw [botMessage_applyStreamError, botMessage_processEvents, hinit]
  simp

/-- Shared helper: on an erroring stream the placeholder ends with isThinking
false. -/
theorem generateResponse_error_isThinking (botMsgId : String) (now : Nat)
    (messages newHistory : List ChatMessage) (currentText : String)
    (outcome : StreamOutcome) (st : AppState) (sid : String)
    (hcur : st.currentSessionId = some sid)
    (hex : (findSession st.sessions sid).isSome = true)
    (hfresh : ∀ m ∈ messages, m.id ≠ botMsgId)
    (herr : outcome.errored = true) :
    Option.map ChatMessage.isThinking
      (botMessage
        (generateResponse botMsgId now messages newHistory currentText outcome st).state.sessions
        sid botMsgId)
      = some false := by
  have hinit := botMessage_updateSessionMessages sid botMsgId now messages
    (botPlaceholder botMsgId now st.currentModel st.enableThinking) rfl st hex hfresh
  rw [generateResponse_state_sessions botMsgId now messages newHistory currentText outcome st sid hcur,
    herr]
  simp only [if_true]
  rw [botMessage_applyStreamError, botMessage_processEvents, hinit]
  simp

/-- C2 counterexample: the adapter fails after one delta Hello has been
applied, and the catch block replaces the placeholder content with the fixed
error text, discarding the accumulated partial text instead of keeping it. -/
theorem C2_counterexample :
    Option.map ChatMessage.content
      (botMessage
        (generateResponse "b1" 2 [] [] "hi"
          { events := [StreamEvent.chunk "Hello"], errored := true } stW).state.sessions
        "s1" "b1")
      = some errorFallbackText
    ∧ errorFallbackText ≠ "Hello" := by
  constructor
  · decide
  · decide

/-- C2 (amended): when the completion adapter fails mid-stream, the catch block
replaces the placeholder content wholesale with the fixed error text, whatever
partial text had accumulated before the failure; partial output is preserved
only while the stream is still alive, not past an error. -/
theorem C2_amended_error_discards_partial (botMsgId : String) (now : Nat)
    (messages newHistory : List ChatMessage) (currentText : String)
    (outcome : StreamOutcome) (st : AppState) (sid : String)
    (hcur : st.currentSessionId = some sid)
    (hex : (findSession st.sessions sid).isSome = true)
    (hfresh : ∀ m ∈ messages, m.id ≠ botMsgId)
    (herr : outcome.errored = true) :
    Option.map ChatMessage.content
      (botMessage
        (generateResponse botMsgId now messages newHistory currentText outcome st).state.sessions
        sid botMsgId)
      = some errorFallbackText :=
  generateResponse_error_content botMsgId now messages newHistory currentText
    outcome st sid hcur hex hfresh herr

/-- C2 witness: a concrete erroring stream whose placeholder ends up holding
the fixed error text. -/
theorem C2_amended_error_discards_partial_witness :
    Option.map ChatMessage.content
      (botMessage
        (generateResponse "b1" 3 [] [] "hi"
          { events := [StreamEvent.chunk "par"], errored := true } stW).state.sessions
        "s1" "b1")
      = some errorFallbackText :=
  C2_amended_error_discards_partial "b1" 3 [] [] "hi"
    { events := [StreamEvent.chunk "par"], errored := true } stW "s1" rfl (by decide) (by simp) rfl

/-- C6: any adapter error makes the placeholder content the fixed error text,
clears isThinking, lowers the global busy flag, and the invocation makes
exactly one adapter call, so no retry happens. -/
theorem C6_error_terminal (botMsgId : String) (now : Nat)
    (messages newHistory : List ChatMessage) (currentText : String)
    (outcome : StreamOutcome) (st : AppState) (sid : String)
    (hcur : st.currentSessionId = some sid)
    (hex : (findSession st.sessions sid).isSome = true)
    (hfresh : ∀ m ∈ messages, m.id ≠ botMsgId)
    (herr : outcome.errored = true) :
    Option.map ChatMessage.content
      (botMessage
        (generateResponse botMsgId now messages newHistory currentText outcome st).state.sessions
        sid botMsgId)
      = some errorFallbackText
    ∧ Option.map ChatMessage.isThinking
        (botMessage
          (generateResponse botMsgId now messages newHistory currentText outcome st).state.sessions
          sid botMsgId)
        = some false
    ∧ (generateResponse botMsgId now messages newHistory currentText outcome st).state.isLoading
        = false
    ∧ (generateResponse botMsgId now messages newHistory currentText outcome st).calls.length
        = 1 := by
  refine ⟨?_, ?_, ?_, ?_⟩
  · exact generateResponse_error_content botMsgId now messages newHistory currentText
      outcome st sid hcur hex hfresh herr
  · exact generateResponse_error_isThinking botMsgId now messages newHistory currentText
      outcome st sid hcur hex hfresh herr
  · exact generateResponse_isLoading botMsgId now messages newHistory currentText outcome st sid hcur
  · rw [generateResponse_calls botMsgId now messages newHistory currentText outcome st sid hcur]
    rfl

/-- C6 witness: a concrete erroring stream with zero deltas ends with the
error text, isThinking false, busy flag low and one adapter call. -/
theorem C6_error_terminal_witness :
    Option.map ChatMessage.content
      (botMessage
        (generateResponse "b1" 4 [] [] "hi"
          { events := [], errored := true } stW).state.sessions
        "s1" "b1")
      = some errorFallbackText
    ∧ Option.map ChatMessage.isThinking
        (botMessage
          (generateResponse "b1" 4 [] [] "hi"
            { events := [], errored := true } stW).state.sessions
          "s1" "b1")
        = some false
    ∧ (generateResponse "b1" 4 [] [] "hi" { events := [], errored := true } stW).state.isLoading
        = false
    ∧ (generateResponse "b1" 4 [] [] "hi" { events := [], errored := true } stW).calls.length
        = 1 :=
  C6_error_terminal "b1" 4 [] [] "hi" { events := [], errored := true } stW "s1"
    rfl (by decide) (by simp) rfl

/-- A callback update leaves every session position holding a different id
untouched. -/
theorem applyMessageUpdate_getElem?_ne (sid mid : String) (f : ChatMessage → ChatMessage)
    (S : List ChatSession) (i : Nat) (s : ChatSession)
    (hs : S[i]? = some s) (hid : s.id ≠ sid) :
    (applyMessageUpdate sid mid f S)[i]? = some s := by
  unfold applyMessageUpdate
  cases hfind : S.find? (fun s => s.id == sid) with
  | none => simpa using hs
  | some s0 =>
    have hbe : (s.id == sid) = false := beq_eq_false_iff_ne.mpr hid
    simp only
    rw [List.getElem?_map, hs]
    simp [hbe, hid]

/-- A callback update leaves lookups of every other session id unchanged. -/
theorem findSession_applyMessageUpdate_ne (sid mid sid2 : String)
    (f : ChatMessage → ChatMessage) (S : List ChatSession) (h : sid2 ≠ sid) :
    findSession (applyMessageUpdate sid mid f S) sid2 = findSession S sid2 := by
  unfold findSession applyMessageUpdate
  cases hfind : S.find? (fun s => s.id == sid) with
  | none => rfl
  | some s0 =>
    simp only
    rw [find?_map_of_pres _ _ ?hpres S]
    case hpres =>
      intro s
      by_cases hcase : (s.id == sid) = true <;> simp [hcase]
    cases hfind2 : S.find? (fun s => s.id == sid2) with
    | none => rfl
    | some s2 =>
      have hs2 : s2.id = sid2 := by simpa using List.find?_some hfind2
      have hne : s2.id ≠ sid := by
        rw [hs2]
        exact h
      have hbe : (s2.id == sid) = false := beq_eq_false_iff_ne.mpr hne
      simp [hbe, hne]

/-- A callback update keyed on one message id leaves the lookup of every other
message id inside the captured session unchanged. -/
theorem botMessage_applyMessageUpdate_ne (sid mid mid2 : String)
    (f : ChatMessage → ChatMessage) (hf : ∀ m, (f m).id = m.id)
    (S : List ChatSession) (h : mid2 ≠ mid) :
    botMessage (applyMessageUpdate sid mid f S) sid mid2 = botMessage S sid mid2 := by
  unfold botMessage findSession findMessage applyMessageUpdate
  cases hfind : S.find? (fun s => s.id == sid) with
  | none => simp [hfind]
  | some s0 =>
    have hs0 : (s0.id == sid) = true := by simpa using List.find?_some hfind
    simp only [hfind]
    rw [find?_map_of_pres _ _ ?hpres S]
    case hpres =>
      intro s
      by_cases hcase : (s.id == sid) = true <;> simp [hcase]
    rw [hfind]
    simp only [Option.map_some', Option.some_bind]
    simp only [hs0, if_true]
    rw [find?_map_of_pres _ _ ?hpresm s0.messages]
    case hpresm =>
      intro m
      by_cases hcase : (m.id == mid) = true <;> simp [hcase, hf]
    cases hm : s0.messages.find? (fun m => m.id == mid2) with
    | none => rfl
    | some m2 =>
      have hm2 : m2.id = mid2 := by simpa using List.find?_some hm
      have hne : m2.id ≠ mid := by
        rw [hm2]
        exact h
      have hbe : (m2.id == mid) = false := beq_eq_false_iff_ne.mpr hne
      simp [hbe, hne]

/-- A callback update keeps the captured session's id, title and updatedAt. -/
theorem findSession_applyMessageUpdate_fields (sid mid : String)
    (f : ChatMessage → ChatMessage) (S : List ChatSession) :
    (findSession (applyMessageUpdate sid mid f S) sid).map (fun s => (s.id, s.title, s.updatedAt))
      = (findSession S sid).map (fun s => (s.id, s.title, s.updatedAt)) := by
  unfold findSession applyMessageUpdate
  cases hfind : S.find? (fun s => s.id == sid) with
  | none => simp [hfind]
  | some s0 =>
    have hs0 : s0.id = sid := by simpa using List.find?_some hfind
    simp only
    rw [find?_map_of_pres _ _ ?hpres S]
    case hpres =>
      intro s
      by_cases hcase : (s.id == sid) = true <;> simp [hcase]
    rw [hfind]
    simp [hs0]

/-- C5: every streaming event replaces exactly the one placeholder message
inside the session whose id was captured at invocation start: other session
positions and other session-id lookups are untouched, other messages of the
captured session are untouched, the captured session's id, title and updatedAt
are untouched, the placeholder is rewritten exactly as the event dictates, and
selecting a different session commutes with the event, so a mid-stream session
switch cannot redirect the update. -/
theorem C5_event_isolation (sid mid acc : String) (md : GroundingMetadata)
    (S : List ChatSession) :
    (∀ (i : Nat) (s : ChatSession), S[i]? = some s → s.id ≠ sid →
      (applyChunk sid mid acc S)[i]? = some s ∧ (applyGrounding sid mid md S)[i]? = some s)
    ∧ (∀ sid2 : String, sid2 ≠ sid →
      findSession (applyChunk sid mid acc S) sid2 = findSession S sid2
      ∧ findSession (applyGrounding sid mid md S) sid2 = findSession S sid2)
    ∧ (∀ mid2 : String, mid2 ≠ mid →
      botMessage (applyChunk sid mid acc S) sid mid2 = botMessage S sid mid2
      ∧ botMessage (applyGrounding sid mid md S) sid mid2 = botMessage S sid mid2)
    ∧ (findSession (applyChunk sid mid acc S) sid).map (fun s => (s.id, s.title, s.updatedAt))
        = (findSession S sid).map (fun s => (s.id, s.title, s.updatedAt))
    ∧ (findSession (applyGrounding sid mid md S) sid).map (fun s => (s.id, s.title, s.updatedAt))
        = (findSession S sid).map (fun s => (s.id, s.title, s.updatedAt))
    ∧ botMessage (applyChunk sid mid acc S) sid mid
        = (botMessage S sid mid).map (fun m => { m with content := acc, isThinking := false })
    ∧ botMessage (applyGrounding sid mid md S) sid mid
        = (botMessage S sid mid).map (fun m => { m with groundingMetadata := some md })
    ∧ (∀ (st : AppState) (otherId : String),
      onChunkStep sid mid acc (selectSession otherId st)
          = selectSession otherId (onChunkStep sid mid acc st)
      ∧ onGroundingStep sid mid md (selectSession otherId st)
          = selectSession otherId (onGroundingStep sid mid md st)) := by
  refine ⟨?_, ?_, ?_, ?_, ?_, ?_, ?_, ?_⟩
  · intro i s hs hid
    exact ⟨applyMessageUpdate_getElem?_ne sid mid
        (fun m => { m with content := acc, isThinking := false }) S i s hs hid,
      applyMessageUpdate_getElem?_ne sid mid
        (fun m => { m with groundingMetadata := some md }) S i s hs hid⟩
  · intro sid2 h
    exact ⟨findSession_applyMessageUpdate_ne sid mid sid2
        (fun m => { m with content := acc, isThinking := false }) S h,
      findSession_applyMessageUpdate_ne sid mid sid2
        (fun m => { m with groundingMetadata := some md }) S h⟩
  · intro mid2 h
    exact ⟨botMessage_applyMessageUpdate_ne sid mid mid2
        (fun m => { m with content := acc, isThinking := false }) (fun _ => rfl) S h,
      botMessage_applyMessageUpdate_ne sid mid mid2
        (fun m => { m with groundingMetadata := some md }) (fun _ => rfl) S h⟩
  · exact findSession_applyMessageUpdate_fields sid mid
      (fun m => { m with content := acc, isThinking := false }) S
  · exact findSession_applyMessageUpdate_fields sid mid
      (fun m => { m with groundingMetadata := some md }) S
  · exact botMessage_applyChunk sid mid acc S
  · exact botMessage_applyGrounding sid mid md S
  · intro st otherId
    exact ⟨rfl, rfl⟩

/-- C5 witness: a chunk event aimed at session E message m2 leaves the session
at position 0 and the sibling message m1 untouched, and rewrites exactly m2. -/
theorem C5_event_isolation_witness :
    (applyChunk "E" "m2" "Hi" [sessW, sessE])[0]? = some sessW
    ∧ botMessage (applyChunk "E" "m2" "Hi" [sessW, sessE]) "E" "m1"
        = botMessage [sessW, sessE] "E" "m1"
    ∧ botMessage (applyChunk "E" "m2" "Hi" [sessW, sessE]) "E" "m2"
        = some { msgM with content := "Hi", isThinking := false } := by
  have h := C5_event_isolation "E" "m2" "Hi" mdW [sessW, sessE]
  refine ⟨(h.1 0 sessW (by decide) (by decide)).1, (h.2.2.1 "m1" (by decide)).1, ?_⟩
  have h2 := h.2.2.2.2.2.1
  exact h2.trans (by decide)

/-- After updateSessionMessages, every session carrying the target id holds
exactly the new message list. -/
theorem updateSessionMessages_mem (sid : String) (now : Nat)
    (newMessages : List ChatMessage) (st : AppState) :
    ∀ s ∈ (updateSessionMessages sid now newMessages st).sessions,
      s.id = sid → s.messages = newMessages := by
  intro s hs hsid
  unfold updateSessionMessages at hs
  simp only [List.mem_map] at hs
  obtain ⟨s1, hs1, hmap⟩ := hs
  by_cases hcase : (s1.id == sid) = true
  · rw [if_pos hcase] at hmap
    rw [← hmap]
  · rw [if_neg hcase] at hmap
    subst hmap
    exact absurd (beq_iff_eq.mpr hsid) hcase

/-- handleEditMessage reduces to one generateResponse call on the strict
prefix before the edited message plus the rebuilt message. -/
theorem handleEditMessage_eq (messageId newContent botMsgId : String) (now : Nat)
    (outcome : StreamOutcome) (st : AppState) (cs : ChatSession) (i : Nat)
    (original : ChatMessage)
    (hc : currentSessionOf st = some cs)
    (hidx : cs.messages.findIdx? (fun m => m.id == messageId) = some i)
    (horig : cs.messages[i]? = some original) :
    handleEditMessage messageId newContent botMsgId now outcome st
      = generateResponse botMsgId now
          (cs.messages.take i ++ [{ original with content := newContent, timestamp := now }])
          (cs.messages.take i) newContent outcome st := by
  simp only [handleEditMessage, hc, hidx, horig]

/-- C7: editing the user message at index i yields, as the list displayed when
regeneration starts, the strict prefix before i followed by the edited message
(original id and role, new content, refreshed timestamp) and the synthesized
placeholder; every message originally after index i is absent; and regeneration
is invoked once with the strict prefix as context and the new content as the
turn text. -/
theorem C7_edit_regenerate (messageId newContent botMsgId : String) (now : Nat)
    (outcome : StreamOutcome) (st : AppState) (cs : ChatSession) (i : Nat)
    (original : ChatMessage)
    (hc : currentSessionOf st = some cs)
    (hsid : st.currentSessionId = some cs.id)
    (hidx : cs.messages.findIdx? (fun m => m.id == messageId) = some i)
    (horig : cs.messages[i]? = some original) :
    (handleEditMessage messageId newContent botMsgId now outcome st).calls
      = [{ model := st.currentModel, history := cs.messages.take i, message := newContent,
           enableSearch := st.enableSearch, enableThinking := st.enableThinking }]
    ∧ ∀ s ∈ (handleEditMessage messageId newContent botMsgId now
          { events := [], errored := false } st).state.sessions,
        s.id = cs.id →
        s.messages
          = (cs.messages.take i ++ [{ original with content := newContent, timestamp := now }])
            ++ [botPlaceholder botMsgId now st.currentModel st.enableThinking] := by
  constructor
  · rw [handleEditMessage_eq messageId newContent botMsgId now outcome st cs i original
      hc hidx horig]
    exact generateResponse_calls botMsgId now _ _ newContent outcome st cs.id hsid
  · rw [handleEditMessage_eq messageId newContent botMsgId now
      { events := [], errored := false } st cs i original hc hidx horig]
    rw [generateResponse_state_sessions botMsgId now _ _ newContent
      { events := [], errored := false } st cs.id hsid]
    simp only [if_false, Bool.false_eq_true, processEvents]
    exact updateSessionMessages_mem cs.id now _ st

/-- C7 witness: the spec scenario, editing m1 of the hi/hello exchange to hey
discards the model reply and regenerates from the empty prefix with turn hey. -/
theorem C7_edit_regenerate_witness :
    (handleEditMessage "m1" "hey" "b1" 9 { events := [], errored := false } stE).calls
      = [{ model := ModelId.flash, history := [], message := "hey",
           enableSearch := false, enableThinking := false }] := by
  have h := (C7_edit_regenerate "m1" "hey" "b1" 9 { events := [], errored := false }
    stE sessE 0 msgU (by decide) rfl (by decide) (by decide)).1
  exact h.trans (by decide)

/-- C8: the thinking configuration is a fixed non-zero 16000 budget when
thinking is enabled on the pro tier, a budget forced to exactly zero when it is
disabled on the pro tier, and absent for the flash tier whatever the toggle. -/
theorem C8_thinking_config :
    thinkingBudgetOf true ModelId.pro = some 16000
    ∧ (16000 : Nat) ≠ 0
    ∧ thinkingBudgetOf false ModelId.pro = some 0
    ∧ thinkingBudgetOf true ModelId.flash = none
    ∧ thinkingBudgetOf false ModelId.flash = none := by
  decide

/-- Soundness of the per-chunk callback computation: chunk events carry the
non-empty text of the chunk, grounding events carry its metadata. -/
theorem chunkEvents_sound (c : GenChunk) (e : StreamEvent) (he : e ∈ chunkEvents c) :
    (∀ t, e = StreamEvent.chunk t → t ≠ "")
    ∧ (∀ md, e = StreamEvent.grounding md → c.groundingMetadata = some md) := by
  obtain ⟨tx, gm⟩ := c
  cases tx with
  | none =>
    cases gm with
    | none => simp [chunkEvents] at he
    | some md0 =>
      simp [chunkEvents] at he
      subst he
      constructor
      · intro t het
        exact StreamEvent.noConfusion het
      · intro md hmd
        cases hmd
        rfl
  | some t0 =>
    by_cases ht : t0 = ""
    · subst ht
      cases gm with
      | none => simp [chunkEvents] at he
      | some md0 =>
        simp [chunkEvents] at he
        subst he
        constructor
        · intro t het
          exact StreamEvent.noConfusion het
        · intro md hmd
          cases hmd
          rfl
    · have hb : (t0 != "") = true := bne_iff_ne.mpr ht
      cases gm with
      | none =>
        simp [chunkEvents, hb] at he
        subst he
        constructor
        · intro t het
          cases het
          exact ht
        · intro md hmd
          exact StreamEvent.noConfusion hmd
      | some md0 =>
        simp [chunkEvents, hb] at he
        rcases he with he | he
        · subst he
          constructor
          · intro t het
            cases het
            exact ht
          · intro md hmd
            exact StreamEvent.noConfusion hmd
        · subst he
          constructor
          · intro t het
            exact StreamEvent.noConfusion het
          · intro md hmd
            cases hmd
            rfl

/-- C9: the adapter never delivers an empty text delta: every chunk event of a
stream carries non-empty text, and every grounding event comes from a chunk
that carries that grounding metadata. -/
theorem C9_no_empty_delta (chunks : List GenChunk) :
    ∀ e ∈ streamEvents chunks,
      (∀ t, e = StreamEvent.chunk t → t ≠ "")
      ∧ (∀ md, e = StreamEvent.grounding md → ∃ c ∈ chunks, c.groundingMetadata = some md) := by
  induction chunks with
  | nil =>
    intro e he
    simp [streamEvents] at he
  | cons c rest ih =>
    intro e he
    rw [streamEvents, List.map_cons, List.flatten_cons] at he
    rcases List.mem_append.mp he with hin | hin
    · have h := chunkEvents_sound c e hin
      exact ⟨h.1, fun md hmd => ⟨c, List.mem_cons_self c rest, h.2 md hmd⟩⟩
    · have h := ih e (by rw [streamEvents]; exact hin)
      refine ⟨h.1, fun md hmd => ?_⟩
      obtain ⟨c2, hc2, hmd2⟩ := h.2 md hmd
      exact ⟨c2, List.mem_cons_of_mem c hc2, hmd2⟩

/-- C9 witness: a concrete chunk with text Hel produces a chunk event whose
delta is non-empty. -/
theorem C9_no_empty_delta_witness :
    StreamEvent.chunk "Hel" ∈ streamEvents [{ text := some "Hel", groundingMetadata := none }]
    ∧ ("Hel" : String) ≠ "" := by
  refine ⟨by decide, ?_⟩
  exact (C9_no_empty_delta [{ text := some "Hel", groundingMetadata := none }]
    (StreamEvent.chunk "Hel") (by decide)).1 "Hel" rfl

/-- C10: with attached files the turn text passed to the completion adapter is
the annotated display string, the composer text followed by a blank line and
the [Attached n file(s)] marker, and in particular never the raw composer
text. -/
theorem C10_attachment_turn_text (text : String) (numFiles : Nat)
    (userMsgId botMsgId : String) (now : Nat) (outcome : StreamOutcome)
    (st : AppState) (cs : ChatSession)
    (hc : currentSessionOf st = some cs)
    (hsid : st.currentSessionId = some cs.id)
    (hn : 0 < numFiles) :
    (handleSendMessage text numFiles userMsgId botMsgId now outcome st).calls
      = [{ model := st.currentModel, history := cs.messages,
           message := text ++ "\n\n[Attached " ++ toString numFiles ++ " file(s)]",
           enableSearch := st.enableSearch, enableThinking := st.enableThinking }]
    ∧ ∀ call ∈ (handleSendMessage text numFiles userMsgId botMsgId now outcome st).calls,
        call.message ≠ text := by
  have hdc : displayContentOf text numFiles
      = text ++ "\n\n[Attached " ++ toString numFiles ++ " file(s)]" := by
    simp [displayContentOf, hn]
  have hcalls : (handleSendMessage text numFiles userMsgId botMsgId now outcome st).calls
      = [{ model := st.currentModel, history := cs.messages,
           message := text ++ "\n\n[Attached " ++ toString numFiles ++ " file(s)]",
           enableSearch := st.enableSearch, enableThinking := st.enableThinking }] := by
    simp only [handleSendMessage, hc]
    rw [generateResponse_calls botMsgId now _ _ _ outcome st cs.id hsid, hdc]
  refine ⟨hcalls, ?_⟩
  intro call hmem
  rw [hcalls] at hmem
  simp only [List.mem_singleton] at hmem
  subst hmem
  intro heq
  have hlen := congrArg String.length heq
  simp only [String.length_append] at hlen
  have h1 : ("\n\n[Attached " : String).length = 12 := by decide
  have h2 : (" file(s)]" : String).length = 9 := by decide
  rw [h1, h2] at hlen
  omega

/-- C10 witness: sending hi with two files passes the annotated turn text. -/
theorem C10_attachment_turn_text_witness :
    (handleSendMessage "hi" 2 "u1" "b1" 9 { events := [], errored := false } stE).calls
      = [{ model := ModelId.flash, history := [msgU, msgM],
           message := "hi\n\n[Attached 2 file(s)]",
           enableSearch := false, enableThinking := false }] := by
  have h := (C10_attachment_turn_text "hi" 2 "u1" "b1" 9 { events := [], errored := false }
    stE sessE (by decide) rfl (by decide)).1
  exact h.trans (by decide)

end Diktik
